import Mathlib

/-!
Shallow embedding of the diagnostic-reporting and autofix-application core of
the analyzed repository:

* `src/lib/utils/report.mjs` — `report`, `buildWarningMessage`, `printfLike`
  and the module-private `applyFix` (namespace `ReportMod`);
* `src/lib/utils/fix.mjs` — the exported `applyFix` and `addFixerData`
  (namespace `FixMod`);
* `src/unnamed/part_000` — `applyFixes` and `offsetDisabledRanges`
  (namespace `Applier`).

Modelling conventions, applied uniformly:

* JavaScript line/column numbers are `Int`; optional (possibly `undefined`)
  values are `Option`; JavaScript truthiness of a number is `≠ 0`, of a
  string is `≠ ""`, of an object is presence.
* Message arguments are modelled as strings (`String(arg)` is the identity
  on them).
* External callbacks (a problem's `fix`, a fix entry's `callback`) are rule
  code outside this repository.  Their invocation is the observable we track:
  the sessions below record in `fixCalls` each rule name whose fix callback
  was invoked, and `Applier.FixEntry.callback` is a function returning the
  new source range the real callback would report.
* Thrown exceptions are the `Except.error` branch: `JsError.err m` models
  `throw new Error(m)` and `JsError.typeError` models a property access on
  `undefined`.
-/

/-- A postcss position: `{line, column}`. -/
structure Position where
  line : Int
  column : Int
deriving DecidableEq, Repr

/-- The `DisabledRange` record from the stylelint types: a start line, an optional end
line (`undefined` = through end of document) and an optional list of rule
names the range applies to. -/
structure DisabledRange where
  start : Int
  «end» : Option Int
  rules : Option (List String)
deriving DecidableEq, Repr

/-- The disabled-range index: a JS object mapping a rule name (or the
wildcard key) to a list of ranges, modelled as an association list with
unique keys. -/
abbrev DisabledRangeIndex := List (String × List DisabledRange)

/-- The constant `RULE_NAME_ALL` imported from `src/lib/constants.mjs` (not under `src/`).
Modelled from the spec: the wildcard key meaning "applies to every rule"; the
fix modules destructure the index as `{ all = [] }`, so the key is `"all"`. -/
def RULE_NAME_ALL : String := "all"

/-- JS object property lookup on an association list (`obj[key]`, giving
`undefined` when the key is missing). -/
def lookupKey {α : Type} : List (String × α) → String → Option α
  | [], _ => none
  | (k, v) :: rest, key => if k = key then some v else lookupKey rest key

/-- Truthiness of an optional JS number: `undefined` and `0` are falsy. -/
def truthyN : Option Int → Bool
  | none => false
  | some n => n ≠ 0

/-- A severity option as it appears in stylelint config and problems:
`undefined`, a string, or a function of the message arguments. -/
inductive SevOpt where
  | undef
  | str (s : String)
  | fn (f : List String → SevOpt)

/-- JS truthiness of a severity option (`undefined` and `''` are falsy, a
function is truthy). -/
def truthySev : SevOpt → Bool
  | .undef => false
  | .str s => s ≠ ""
  | .fn _ => true

/-- JS `a || b` on severity options. -/
def jsOrSev (a b : SevOpt) : SevOpt := if truthySev a then a else b

/-- The strict comparison `=== 'error'` on a severity option. -/
def sevIsError : SevOpt → Bool
  | .str s => s = "error"
  | _ => false

/-- The strict comparison `=== 'warning'` on a severity option. -/
def sevIsWarning : SevOpt → Bool
  | .str s => s = "warning"
  | _ => false

/-- A rule message: a literal string or a function of the message args. -/
inductive RuleMessage where
  | str (s : String)
  | fn (f : List String → String)

/-- JS truthiness of a message (`''` is falsy, a function is truthy). -/
def truthyMsg : RuleMessage → Bool
  | .str s => s ≠ ""
  | .fn _ => true

/-- JS `(customMessages && customMessages[ruleName]) || message`: take the
custom message when the lookup produced a truthy value, else the rule's
message. -/
def jsOrMsgOpt (o : Option RuleMessage) (m : RuleMessage) : RuleMessage :=
  match o with
  | some cm => if truthyMsg cm then cm else m
  | none => m

/-- The result of `node.rangeBy(...)`: a range whose endpoints we keep
optional so that absent position data surfaces as `undefined`. -/
structure NodeRange where
  start : Option Position
  «end» : Option Position
deriving DecidableEq, Repr

/-- A postcss node, reduced to the one capability `report` uses: the
`rangeBy({index, endIndex})` lookup. -/
structure Node where
  rangeBy : Option Int → Option Int → NodeRange

/-- The stylelint config slice consulted by these modules. -/
structure Config where
  fix : Bool := false
  defaultSeverity : SevOpt := .undef
  ignoreDisables : Bool := false

/-- A suppression-log entry pushed onto `result.stylelint.disabledWarnings`. -/
structure DisabledWarning where
  rule : String
  line : Int
deriving DecidableEq, Repr

/-- A fixer-attempt log entry (`FixerData` in report.mjs / fix.mjs): the
attempted range and whether the fix was executed. -/
structure FixerData where
  range : NodeRange
  fixed : Bool
deriving DecidableEq, Repr

/-- The properties handed to `result.warn` alongside the message. -/
structure WarningProperties where
  severity : SevOpt
  rule : String
  node : Option Node
  start : Option Position
  index : Option Int
  «end» : Option Position
  endIndex : Option Int
  word : Option String

/-- A diagnostic registered by `result.warn(message, properties)`. -/
structure Diagnostic where
  message : String
  props : WarningProperties

/-- A thrown JS exception: `Error(message)` or a TypeError from accessing a
property of `undefined`. -/
inductive JsError where
  | err (message : String)
  | typeError
deriving DecidableEq, Repr

/-- The mutable `result.stylelint` session state threaded through `report`
and the fix helpers, plus the `warnings` sink of `result.warn` and the
`fixCalls` record of invoked fix callbacks. -/
structure Session where
  config : Config := {}
  ruleSeverities : List (String × SevOpt) := []
  quiet : Bool := false
  disabledRanges : Option DisabledRangeIndex := none
  disabledWarnings : List DisabledWarning := []
  stylelintError : Bool := false
  stylelintWarning : Bool := false
  customMessages : Option (List (String × RuleMessage)) := none
  fixersData : List (String × List FixerData) := []
  warnings : List Diagnostic := []
  fixCalls : List String := []

/-- The problem record passed to `report`.  `fix` records whether a fix
callback was passed (`typeof fix === 'function'`); its invocation is
tracked through `Session.fixCalls`. -/
structure Problem where
  index : Option Int := none
  endIndex : Option Int := none
  start : Option Position := none
  «end» : Option Position := none
  fix : Bool := false
  line : Option Int := none
  message : RuleMessage
  messageArgs : Option (List String) := none
  node : Option Node := none
  ruleName : String
  severity : SevOpt := .undef
  word : Option String := none

/-- Append a fixer-attempt entry under a rule name, creating the per-rule
list when absent (`fixersData[ruleName] || (fixersData[ruleName] = [])`
followed by `push`, and likewise `addFixerData`). -/
def pushAssoc {α : Type} : List (String × List α) → String → α → List (String × List α)
  | [], k, d => [(k, [d])]
  | (k', l) :: rest, k, d =>
    if k' = k then (k', l ++ [d]) :: rest else (k', l) :: pushAssoc rest k d

namespace ReportMod

/-- From report.mjs line 180: replace the first `/%[ds]/` match in the string
by the argument (as a character-list transformation). -/
def replacePh : List Char → String → List Char
  | [], _ => []
  | '%' :: c :: rest, arg =>
    if c = 's' || c = 'd' then arg.data ++ rest else '%' :: replacePh (c :: rest) arg
  | ch :: rest, arg => ch :: replacePh rest arg

/-- The `printfLike(format, ...args)` helper: fold the arguments left-to-right, each
replacing the first remaining `%s`/`%d` placeholder. -/
def printfLike (format : String) (args : List String) : String :=
  ⟨args.foldl (fun res arg => replacePh res arg) format.data⟩

/-- The `buildWarningMessage` helper: format a string message with `printfLike`, or
invoke a function message with the spread arguments. -/
def buildWarningMessage (message : RuleMessage) (messageArgs : Option (List String)) : String :=
  let args := messageArgs.getD []
  match message with
  | .str s => printfLike s args
  | .fn f => f args

/-- JS `hasRange = end?.column && start`: truthy end column and a present
start object. -/
def hasRangeB (p : Problem) : Bool :=
  (match p.«end» with
   | some e => e.column ≠ 0
   | none => false) && p.start.isSome

/-- JS `hasIndexes = isNumber(index) && isNumber(endIndex)`; `isNumber` (from
`validateTypes.mjs`, not under `src/`) is `typeof value === 'number'`,
modelled as presence of the numeric field. -/
def hasIndexesB (p : Problem) : Bool := p.index.isSome && p.endIndex.isSome

/-- JS `hasRangeData = hasRange || hasIndexes`. -/
def hasRangeDataB (p : Problem) : Bool := hasRangeB p || hasIndexesB p

/-- Severity resolution (report.mjs lines 56–61): take `severity ||
ruleSeverities[ruleName]`; when the selected option is a function invoke it
with the message args (empty list if absent) and fall back to
`config.defaultSeverity || 'error'` on a falsy return, otherwise use the
selected option unchanged. -/
def resolveSeverity (p : Problem) (s : Session) : SevOpt :=
  let ruleSeverityOption :=
    jsOrSev p.severity ((lookupKey s.ruleSeverities p.ruleName).getD .undef)
  let defaultSeverity := jsOrSev s.config.defaultSeverity (.str "error")
  match ruleSeverityOption with
  | .fn f => jsOrSev (f (p.messageArgs.getD [])) defaultSeverity
  | o => o

/-- The per-range condition of the suppression loop (report.mjs lines 92–94):
the range covers the line (`start ≤ line` and `end === undefined ∨ end ≥
line`) and its `rules`, when truthy, include the rule name. -/
def rangeMatches (ruleName : String) (startLine : Int) (r : DisabledRange) : Bool :=
  r.start ≤ startLine &&
  (match r.«end» with
   | none => true
   | some e => e ≥ startLine) &&
  (match r.rules with
   | none => true
   | some l => l.contains ruleName)

/-- The `for (const range of ranges)` loop of `report`: on the first
matching range push one `{rule, line}` entry; suppress (`return`) when
`ignoreDisables` is false, otherwise `break`.  Returns the entries pushed
and whether the report was suppressed. -/
def scanRanges (ruleName : String) (startLine : Int) (ignoreDisables : Bool) :
    List DisabledRange → List DisabledWarning × Bool
  | [] => ([], false)
  | r :: rest =>
    if rangeMatches ruleName startLine r then
      ([⟨ruleName, startLine⟩], !ignoreDisables)
    else scanRanges ruleName startLine ignoreDisables rest

/-- JS `disabledRanges[ruleName] ?? disabledRanges[RULE_NAME_ALL] ?? []`: the
list of ranges the reporting path consults for a rule. -/
def consultedRanges (idx : DisabledRangeIndex) (ruleName : String) : List DisabledRange :=
  (lookupKey idx ruleName).getD ((lookupKey idx RULE_NAME_ALL).getD [])

/-- The `warningProperties` object (report.mjs lines 124–147): `start` wins
over `index`, `end` over `endIndex`, `word` only when truthy. -/
def buildWarningProperties (p : Problem) (sev : SevOpt) : WarningProperties where
  severity := sev
  rule := p.ruleName
  node := p.node
  start := p.start
  index := if p.start.isSome then none else p.index
  «end» := p.«end»
  endIndex := if p.«end».isSome then none else p.endIndex
  word :=
    match p.word with
    | some w => if w = "" then none else some w
    | none => none

/-- The tail of `report` from line 56 on: resolve severity, quiet-drop,
resolve the start line (or throw), scan the disabled ranges, set the
session flags, and register the warning. -/
def reportCore (p : Problem) (s : Session) : Except JsError Session :=
  let ruleSeverity := resolveSeverity p s
  if s.quiet && !sevIsError ruleSeverity then .ok s
  else
    let reportRange : NodeRange :=
      match p.node with
      | some nd => nd.rangeBy p.index p.endIndex
      | none => ⟨none, none⟩
    let startLineOpt : Option Int :=
      if truthyN p.line then p.line else reportRange.start.map (·.line)
    if !truthyN startLineOpt then
      .error (.err ("The \"" ++ p.ruleName ++
        "\" rule failed to pass either a node or a line number to the `report()` function."))
    else
      let startLine := startLineOpt.getD 0
      let scanned : Session × Bool :=
        match s.disabledRanges with
        | none => (s, false)
        | some idx =>
          let ranges := consultedRanges idx p.ruleName
          let res := scanRanges p.ruleName startLine s.config.ignoreDisables ranges
          ({ s with disabledWarnings := s.disabledWarnings ++ res.1 }, res.2)
      let s1 := scanned.1
      if scanned.2 then .ok s1
      else
        let s2 := { s1 with
          stylelintError := s1.stylelintError || sevIsError ruleSeverity
          stylelintWarning := s1.stylelintWarning || sevIsWarning ruleSeverity }
        let msg := buildWarningMessage
          (jsOrMsgOpt (s.customMessages.bind (fun cm => lookupKey cm p.ruleName)) p.message)
          p.messageArgs
        .ok { s2 with warnings := s2.warnings ++ [⟨msg, buildWarningProperties p ruleSeverity⟩] }

/-- The local `isInRange` closure of report.mjs's private `applyFix`
(lines 207–208), with the captured `range.start.line` as a parameter:
`line >= start && (!end || line <= end)` directly on a `DisabledRange`. -/
def isInRange (line : Int) (r : DisabledRange) : Bool :=
  line ≥ r.start && (!truthyN r.«end» || line ≤ r.«end».getD 0)

/-- The module-private `applyFix` of report.mjs (lines 200–216): consult
`disabledRanges[ruleName] ?? all`, decide `mayFix`, push `{range, fixed}`
onto the per-rule fixer data, and invoke the fix callback when allowed.
Destructuring an undefined `disabledRanges` or reading `range.start.line`
of an absent start position throws a TypeError. -/
def applyFix (ruleName : String) (range : NodeRange) (s : Session) : Except JsError Session :=
  match s.disabledRanges with
  | none => .error .typeError
  | some disabledRanges =>
    let all := (lookupKey disabledRanges RULE_NAME_ALL).getD []
    let ranges := (lookupKey disabledRanges ruleName).getD all
    let mayFixE : Except JsError Bool :=
      if s.config.ignoreDisables then .ok true
      else if ranges.isEmpty then .ok true
      else
        match range.start with
        | none => .error .typeError
        | some st => .ok (!(ranges.any (isInRange st.line)))
    match mayFixE with
    | .error e => .error e
    | .ok mayFix =>
      let s1 := { s with fixersData := pushAssoc s.fixersData ruleName ⟨range, mayFix⟩ }
      if mayFix then .ok { s1 with fixCalls := s1.fixCalls ++ [ruleName] } else .ok s1

/-- The range computed in the `hasFixData` block (report.mjs line 51):
`hasRange ? { start, end } : node.rangeBy({index, endIndex})`; the
`rangeBy` call on a missing node throws. -/
def computeFixRange (p : Problem) : Except JsError NodeRange :=
  if hasRangeB p then .ok ⟨p.start, p.«end»⟩
  else
    match p.node with
    | none => .error .typeError
    | some nd => .ok (nd.rangeBy p.index p.endIndex)

/-- The entry point `report(problem)`: throw when a fix callback comes without range data;
on the fix path (`config.fix` with range data and a fix callback) defer to
`applyFix`; otherwise run the reporting tail. -/
def report (p : Problem) (s : Session) : Except JsError Session :=
  let hasFix := p.fix
  let hasFixData := s.config.fix && hasRangeDataB p
  if hasFix && !hasRangeDataB p then
    .error (.err ("The fix callback for rule \"" ++ p.ruleName ++
      "\" requires either index/endIndex or start/end to be passed to the `report()` function."))
  else if hasFixData then
    match computeFixRange p with
    | .error e => .error e
    | .ok range => if hasFix then applyFix p.ruleName range s else reportCore p s
  else reportCore p s

end ReportMod

/-- The `[start, end]` tuple produced by the `cb` helper of fix.mjs and
part_000. -/
abbrev Tuple := Int × Option Int

/-- The helper `cb = ({start, end}) => [start, end]`. -/
def cb (r : DisabledRange) : Tuple := (r.start, r.«end»)

namespace FixMod

/-- The local `isInRange` closure of fix.mjs's `applyFix` (lines 30–31),
with the captured `range.start.line` as a parameter:
`line >= start && (!end || line <= end)` on a `[start, end]` tuple (`!end`
is truthy-negation, so an undefined or zero end means "open"). -/
def isInRange (line : Int) (t : Tuple) : Bool :=
  line ≥ t.1 && (!truthyN t.2 || line ≤ t.2.getD 0)

/-- The exported `applyFix` of fix.mjs (lines 24–41): consult the
concatenation `all.map(cb).concat(ruleRanges)`, decide `mayFix`, invoke the
callback when allowed, and record `{range, fixed}` through `addFixerData`.
Destructuring an undefined `disabledRanges` or reading `range.start.line`
of an absent start throws a TypeError. -/
def applyFix (ruleName : String) (range : NodeRange) (s : Session) : Except JsError Session :=
  match s.disabledRanges with
  | none => .error .typeError
  | some disabledRanges =>
    let all := (lookupKey disabledRanges RULE_NAME_ALL).getD []
    let ruleRanges := ((lookupKey disabledRanges ruleName).map (·.map cb)).getD []
    let ranges := all.map cb ++ ruleRanges
    let mayFixE : Except JsError Bool :=
      if s.config.ignoreDisables then .ok true
      else if ranges.isEmpty then .ok true
      else
        match range.start with
        | none => .error .typeError
        | some st => .ok (!(ranges.any (isInRange st.line)))
    match mayFixE with
    | .error e => .error e
    | .ok mayFix =>
      let s1 := if mayFix then { s with fixCalls := s.fixCalls ++ [ruleName] } else s
      .ok { s1 with fixersData := pushAssoc s1.fixersData ruleName ⟨range, mayFix⟩ }

end FixMod

namespace Applier

/-- A source range as produced by a fixer callback: concrete start and end
positions. -/
structure SourceRange where
  start : Position
  «end» : Position
deriving DecidableEq, Repr

/-- A deferred fix entry of `fixersData` as consumed by part_000's
`applyFixes`: `{source, callback, args, unfixable}`.  The callback models
`callback(args)` with the arguments pre-applied; it returns the new source
range. -/
structure FixEntry where
  source : SourceRange
  callback : Unit → SourceRange
  unfixable : Bool

/-- The state `applyFixes` reads off `result.stylelint`. -/
structure FixState where
  disabledRanges : DisabledRangeIndex
  fixersData : List (String × List FixEntry)
  config : Config := {}

/-- One range of `offsetDisabledRanges` (part_000 lines 61–64): shift the
start when it lies strictly after the fix's end line, and shift the end
when it is truthy and lies strictly after the fix's end line. -/
def offsetRange (endLine diff : Int) (r : DisabledRange) : DisabledRange where
  start := if r.start > endLine then r.start + diff else r.start
  «end» :=
    match r.«end» with
    | some e => if e ≠ 0 && e > endLine then some (e + diff) else some e
    | none => none
  rules := r.rules

/-- The helper `offsetDisabledRanges(disabledRanges, endLine, diff)`: emend every range
under every key in place. -/
def offsetDisabledRanges (idx : DisabledRangeIndex) (endLine diff : Int) : DisabledRangeIndex :=
  idx.map fun kv => (kv.1, kv.2.map (offsetRange endLine diff))

/-- The local `isInRange` closure of part_000's `applyFixes` (lines 32–33),
with the captured `source.start.line` as a parameter: identical in shape to
the fix.mjs closure. -/
def isInRange (line : Int) (t : Tuple) : Bool :=
  line ≥ t.1 && (!truthyN t.2 || line ≤ t.2.getD 0)

/-- The eligibility test of one entry (part_000 lines 32–35):
`!unfixable && (config?.ignoreDisables || !ranges.length ||
!ranges.some(isInRange))`. -/
def mayFixB (config : Config) (ranges : List Tuple) (e : FixEntry) : Bool :=
  !e.unfixable &&
    (config.ignoreDisables || ranges.isEmpty || !(ranges.any (isInRange e.source.start.line)))

/-- The tuple snapshot a rule's entries are checked against:
`all.map(cb).concat(ruleRanges)` taken from the current index.  (The source
captures the `all` array once at function entry, but `offsetDisabledRanges`
mutates the ranges in place inside that same array, so re-reading the key
from the current index is the faithful immutable rendering.) -/
def rangesFor (idx : DisabledRangeIndex) (ruleName : String) : List Tuple :=
  ((lookupKey idx RULE_NAME_ALL).getD []).map cb ++
    ((lookupKey idx ruleName).map (·.map cb)).getD []

/-- The inner `array.forEach` of `applyFixes`: run each entry against the
rule's frozen tuple snapshot, threading the disabled-range index and
accumulating the `(rule, source)` of each executed callback. -/
def runEntries (config : Config) (ranges : List Tuple) (ruleName : String) :
    List FixEntry → DisabledRangeIndex → List (String × SourceRange) →
      DisabledRangeIndex × List (String × SourceRange)
  | [], idx, acc => (idx, acc)
  | e :: rest, idx, acc =>
    if mayFixB config ranges e then
      let newSource := e.callback ()
      let diff := newSource.«end».line - e.source.«end».line
      let idx' :=
        if !config.ignoreDisables && diff ≠ 0 then
          offsetDisabledRanges idx e.source.«end».line diff
        else idx
      runEntries config ranges ruleName rest idx' (acc ++ [(ruleName, e.source)])
    else runEntries config ranges ruleName rest idx acc

/-- The outer `rules.forEach` of `applyFixes`: take the tuple snapshot for
the rule from the current index, then drain its entries. -/
def runRules (config : Config) :
    List (String × List FixEntry) → DisabledRangeIndex → List (String × SourceRange) →
      DisabledRangeIndex × List (String × SourceRange)
  | [], idx, acc => (idx, acc)
  | (ruleName, entries) :: rest, idx, acc =>
    let ranges := rangesFor idx ruleName
    let res := runEntries config ranges ruleName entries idx acc
    runRules config rest res.1 res.2

/-- The entry point `applyFixes(result)` of part_000: apply the registered fixes rule by
rule, offsetting the disabled ranges after each executed fix that changed
the line count (unless `ignoreDisables`).  Returns the final index and the
executed fixes. -/
def applyFixes (st : FixState) : DisabledRangeIndex × List (String × SourceRange) :=
  runRules st.config st.fixersData st.disabledRanges []

end Applier

/-! ### Helper lemmas shared by the claim theorems -/

/-- A problem whose fix-data block cannot dereference a missing node: either
the block is not entered, or an explicit range is given, or the node is
present.  Under this condition `report` falls through to its reporting tail
whenever no fix callback is given. -/
def fixBlockSafe (p : Problem) (c : Config) : Bool :=
  !(c.fix && ReportMod.hasRangeDataB p) || ReportMod.hasRangeB p || p.node.isSome

theorem report_eq_reportCore (p : Problem) (s : Session)
    (hf : p.fix = false) (hsafe : fixBlockSafe p s.config = true) :
    ReportMod.report p s = ReportMod.reportCore p s := by
  unfold ReportMod.report ReportMod.computeFixRange
  by_cases hr : ReportMod.hasRangeB p = true
  · simp [hf, hr]
  · by_cases hc : (s.config.fix && ReportMod.hasRangeDataB p) = true
    · have hn : p.node.isSome = true := by
        unfold fixBlockSafe at hsafe
        rw [hc] at hsafe
        simp only [Bool.not_true, Bool.false_or, Bool.or_eq_true] at hsafe
        rcases hsafe with h1 | h2
        · exact absurd h1 hr
        · exact h2
      rcases Option.isSome_iff_exists.mp hn with ⟨nd, hnd⟩
      simp [hf, hc, hr, hnd]
    · simp [hf, hc]

theorem scanRanges_of_forall_not (ruleName : String) (startLine : Int) (ign : Bool)
    (rs : List DisabledRange)
    (h : ∀ r ∈ rs, ReportMod.rangeMatches ruleName startLine r = false) :
    ReportMod.scanRanges ruleName startLine ign rs = ([], false) := by
  induction rs with
  | nil => rfl
  | cons r rest ih =>
    have hr := h r (List.mem_cons_self r rest)
    simp only [ReportMod.scanRanges, hr, Bool.false_eq_true, if_false]
    exact ih fun r' h' => h r' (List.mem_cons_of_mem r h')

theorem scanRanges_of_exists (ruleName : String) (startLine : Int) (ign : Bool)
    (rs : List DisabledRange)
    (h : ∃ r ∈ rs, ReportMod.rangeMatches ruleName startLine r = true) :
    ReportMod.scanRanges ruleName startLine ign rs = ([⟨ruleName, startLine⟩], !ign) := by
  induction rs with
  | nil => rcases h with ⟨r, hr, _⟩; cases hr
  | cons r rest ih =>
    by_cases hr : ReportMod.rangeMatches ruleName startLine r = true
    · simp [ReportMod.scanRanges, hr]
    · simp only [ReportMod.scanRanges, hr, if_false]
      apply ih
      rcases h with ⟨r', hr', hm⟩
      rcases List.mem_cons.mp hr' with rfl | hmem
      · exact absurd hm hr
      · exact ⟨r', hmem, hm⟩

theorem consultedRanges_of_key (idx : DisabledRangeIndex) (ruleName : String)
    (l : List DisabledRange) (h : lookupKey idx ruleName = some l) :
    ReportMod.consultedRanges idx ruleName = l := by
  unfold ReportMod.consultedRanges
  rw [h]; rfl

theorem consultedRanges_of_no_key (idx : DisabledRangeIndex) (ruleName : String)
    (h : lookupKey idx ruleName = none) :
    ReportMod.consultedRanges idx ruleName = (lookupKey idx RULE_NAME_ALL).getD [] := by
  unfold ReportMod.consultedRanges
  rw [h]; rfl

theorem runEntries_ineligible (config : Config) (ranges : List Tuple) (ruleName : String)
    (entries : List Applier.FixEntry) (idx : DisabledRangeIndex)
    (acc : List (String × Applier.SourceRange))
    (h : ∀ e ∈ entries, Applier.mayFixB config ranges e = false) :
    Applier.runEntries config ranges ruleName entries idx acc = (idx, acc) := by
  induction entries with
  | nil => rfl
  | cons e rest ih =>
    have he := h e (List.mem_cons_self e rest)
    simp only [Applier.runEntries, he, Bool.false_eq_true, if_false]
    exact ih fun e' h' => h e' (List.mem_cons_of_mem e h')

theorem runRules_ineligible (config : Config) (rules : List (String × List Applier.FixEntry))
    (idx : DisabledRangeIndex) (acc : List (String × Applier.SourceRange))
    (h : ∀ pr ∈ rules, ∀ e ∈ pr.2, Applier.mayFixB config (Applier.rangesFor idx pr.1) e = false) :
    Applier.runRules config rules idx acc = (idx, acc) := by
  induction rules with
  | nil => rfl
  | cons pr rest ih =>
    obtain ⟨ruleName, entries⟩ := pr
    have hhead := h _ (List.mem_cons_self _ rest)
    simp only [Applier.runRules]
    rw [runEntries_ineligible config _ ruleName entries idx acc hhead]
    exact ih fun pr' h' => h pr' (List.mem_cons_of_mem _ h')

theorem replacePh_cons_ne (ch : Char) (t : List Char) (a : String) (h : ch ≠ '%') :
    ReportMod.replacePh (ch :: t) a = ch :: ReportMod.replacePh t a := by
  rw [ReportMod.replacePh.eq_def]
  split <;> simp_all

theorem replacePh_append_of_not_mem (pre l : List Char) (a : String) (h : '%' ∉ pre) :
    ReportMod.replacePh (pre ++ l) a = pre ++ ReportMod.replacePh l a := by
  induction pre with
  | nil => rfl
  | cons ch rest ih =>
    have hch : ch ≠ '%' := fun hc => h (hc ▸ List.mem_cons_self ch rest)
    rw [List.cons_append, replacePh_cons_ne ch (rest ++ l) a hch,
      ih fun hm => h (List.mem_cons_of_mem ch hm), List.cons_append]

/-! ### Claim theorems -/

/-- Claim C8: when the message is a string, formatting consumes `%s`/`%d`
placeholders left-to-right against `messageArgs`, one placeholder per
argument — `"Expected %s but found %s"` with `['a','b']` yields
`"Expected a but found b"` — placeholder tokens beyond the supplied
arguments remain literal, and a function message is invoked with the
spread arguments. -/
theorem claim_C8 :
    ReportMod.printfLike "Expected %s but found %s" ["a", "b"] = "Expected a but found b" ∧
    ReportMod.printfLike "Expected %s but found %s" ["a"] = "Expected a but found %s" ∧
    (∀ fmt : String, ReportMod.printfLike fmt [] = fmt) ∧
    (∀ (pre suf : List Char) (a : String) (args : List String), '%' ∉ pre →
      ReportMod.printfLike ⟨pre ++ '%' :: 's' :: suf⟩ (a :: args) =
        ReportMod.printfLike ⟨pre ++ a.data ++ suf⟩ args) ∧
    (∀ (pre suf : List Char) (a : String) (args : List String), '%' ∉ pre →
      ReportMod.printfLike ⟨pre ++ '%' :: 'd' :: suf⟩ (a :: args) =
        ReportMod.printfLike ⟨pre ++ a.data ++ suf⟩ args) ∧
    (∀ (f : List String → String) (args : Option (List String)),
      ReportMod.buildWarningMessage (.fn f) args = f (args.getD [])) := by
  refine ⟨by decide, by decide, ?_, ?_, ?_, ?_⟩
  · intro fmt
    cases fmt
    rfl
  · intro pre suf a args h
    unfold ReportMod.printfLike
    simp only [List.foldl_cons]
    have h1 : ReportMod.replacePh (pre ++ '%' :: 's' :: suf) a = pre ++ a.data ++ suf := by
      rw [replacePh_append_of_not_mem pre _ a h, List.append_assoc]
      rfl
    exact congrArg (fun l => String.mk (args.foldl (fun res arg => ReportMod.replacePh res arg) l)) h1
  · intro pre suf a args h
    unfold ReportMod.printfLike
    simp only [List.foldl_cons]
    have h1 : ReportMod.replacePh (pre ++ '%' :: 'd' :: suf) a = pre ++ a.data ++ suf := by
      rw [replacePh_append_of_not_mem pre _ a h, List.append_assoc]
      rfl
    exact congrArg (fun l => String.mk (args.foldl (fun res arg => ReportMod.replacePh res arg) l)) h1
  · intro f args
    rfl

/-- Witness for claim C8: the placeholder-consumption conjuncts applied at
concrete inputs. -/
theorem claim_C8_witness :
    ReportMod.printfLike ⟨['a'] ++ '%' :: 's' :: ['z']⟩ ["b"] =
      ReportMod.printfLike ⟨['a'] ++ "b".data ++ ['z']⟩ [] ∧
    ReportMod.printfLike ⟨['a'] ++ '%' :: 'd' :: ['z']⟩ ["7"] =
      ReportMod.printfLike ⟨['a'] ++ "7".data ++ ['z']⟩ [] :=
  ⟨claim_C8.2.2.2.1 ['a'] ['z'] "b" [] (by decide),
   claim_C8.2.2.2.2.1 ['a'] ['z'] "7" [] (by decide)⟩

/-- Claim C9: a fix-application pass with an empty registry, or one in which
no entry is eligible (its `mayFix` test evaluates false against the initial
index), leaves every disabled range exactly as it was and executes
nothing. -/
theorem claim_C9 :
    (∀ (idx : DisabledRangeIndex) (config : Config),
      Applier.applyFixes ⟨idx, [], config⟩ = (idx, [])) ∧
    (∀ st : Applier.FixState,
      (∀ pr ∈ st.fixersData, ∀ e ∈ pr.2,
        Applier.mayFixB st.config (Applier.rangesFor st.disabledRanges pr.1) e = false) →
      Applier.applyFixes st = (st.disabledRanges, [])) := by
  constructor
  · intro idx config
    rfl
  · intro st h
    unfold Applier.applyFixes
    exact runRules_ineligible st.config st.fixersData st.disabledRanges [] h

/-- Witness for claim C9: a registry with one unfixable entry leaves the
index untouched. -/
theorem claim_C9_witness :
    Applier.applyFixes
      ⟨[("all", [⟨1, some 5, none⟩])],
        [("foo", [⟨⟨⟨3, 1⟩, ⟨3, 1⟩⟩, fun _ => ⟨⟨3, 1⟩, ⟨5, 1⟩⟩, true⟩])], {}⟩ =
      ([("all", [⟨1, some 5, none⟩])], []) :=
  claim_C9.2 _ (by decide)

/-- Counterexample for claim C1: rule `"foo"` reported at line 3 with a
wildcard range `{start: 1, end: 5}` covering that line (and matching the
rule); under the claimed union semantics the report would be suppressed,
but the reporting path consults only the rule-specific list when the
`"foo"` key exists, so the diagnostic is emitted and nothing is logged. -/
theorem claim_C1_cex :
    ReportMod.rangeMatches "foo" 3 ⟨1, some 5, none⟩ = true ∧
    lookupKey ([("all", [⟨1, some 5, none⟩]), ("foo", [⟨10, some 20, none⟩])] :
        DisabledRangeIndex) RULE_NAME_ALL = some [⟨1, some 5, none⟩] ∧
    (ReportMod.report
        { message := .str "m", ruleName := "foo", line := some 3, severity := .str "error" }
        { disabledRanges := some
            [("all", [⟨1, some 5, none⟩]), ("foo", [⟨10, some 20, none⟩])] }).toOption.map
      (fun s => (s.warnings.length, s.disabledWarnings)) = some (1, []) :=
  ⟨by decide, by decide, by rfl⟩

/-- Claim C1 (amended): on the fix-application path the consulted set is the
union — the wildcard list concatenated with the rule-specific list, so a
fix line covered under either key blocks the fix; on the reporting path the
rule-specific list replaces the wildcard list when the key is present (the
wildcard list is consulted only as a fallback), so a line covered only by a
wildcard range does not suppress a report for a rule that has its own key,
while with no rule-specific key a matching wildcard range does suppress. -/
theorem claim_C1 :
    (∀ (config : Config) (idx : DisabledRangeIndex) (rule : String) (e : Applier.FixEntry),
      config.ignoreDisables = false → e.unfixable = false →
      ((∃ r ∈ (lookupKey idx RULE_NAME_ALL).getD [],
          Applier.isInRange e.source.start.line (cb r) = true) ∨
       (∃ r ∈ (lookupKey idx rule).getD [],
          Applier.isInRange e.source.start.line (cb r) = true)) →
      Applier.applyFixes ⟨idx, [(rule, [e])], config⟩ = (idx, [])) ∧
    (∀ (p : Problem) (s : Session) (idx : DisabledRangeIndex) (l : List DisabledRange),
      p.fix = false → fixBlockSafe p s.config = true →
      (s.quiet && !sevIsError (ReportMod.resolveSeverity p s)) = false →
      truthyN p.line = true → s.disabledRanges = some idx →
      lookupKey idx p.ruleName = some l →
      (∀ r ∈ l, ReportMod.rangeMatches p.ruleName (p.line.getD 0) r = false) →
      ∃ s', ReportMod.report p s = .ok s' ∧
        s'.disabledWarnings = s.disabledWarnings ∧
        s'.warnings.length = s.warnings.length + 1) ∧
    (∀ (p : Problem) (s : Session) (idx : DisabledRangeIndex),
      p.fix = false → fixBlockSafe p s.config = true →
      (s.quiet && !sevIsError (ReportMod.resolveSeverity p s)) = false →
      truthyN p.line = true → s.disabledRanges = some idx →
      s.config.ignoreDisables = false →
      lookupKey idx p.ruleName = none →
      (∃ r ∈ (lookupKey idx RULE_NAME_ALL).getD [],
        ReportMod.rangeMatches p.ruleName (p.line.getD 0) r = true) →
      ∃ s', ReportMod.report p s = .ok s' ∧
        s'.disabledWarnings = s.disabledWarnings ++ [⟨p.ruleName, p.line.getD 0⟩] ∧
        s'.warnings = s.warnings) := by
  refine ⟨?_, ?_, ?_⟩
  · intro config idx rule e hig hunf hcov
    have hmem : ∃ t ∈ Applier.rangesFor idx rule,
        Applier.isInRange e.source.start.line t = true := by
      unfold Applier.rangesFor
      rcases hcov with ⟨r, hr, hc⟩ | ⟨r, hr, hc⟩
      · exact ⟨cb r, List.mem_append_left _ (List.mem_map_of_mem cb hr), hc⟩
      · cases hk : lookupKey idx rule with
        | none => rw [hk] at hr; cases hr
        | some l =>
          rw [hk] at hr
          have hr' : r ∈ l := by simpa using hr
          refine ⟨cb r, List.mem_append_right _ ?_, hc⟩
          have hm : cb r ∈ List.map cb l := List.mem_map_of_mem cb hr'
          simpa [hk] using hm
    have hmay : Applier.mayFixB config (Applier.rangesFor idx rule) e = false := by
      unfold Applier.mayFixB
      have hany : (Applier.rangesFor idx rule).any
          (Applier.isInRange e.source.start.line) = true := List.any_eq_true.mpr hmem
      have hne : (Applier.rangesFor idx rule).isEmpty = false := by
        rcases hmem with ⟨t, ht, _⟩
        cases hl : Applier.rangesFor idx rule with
        | nil => rw [hl] at ht; cases ht
        | cons a tl => rfl
      simp [hig, hunf, hany, hne]
    simp [Applier.applyFixes, Applier.runRules, Applier.runEntries, hmay]
  · intro p s idx l hf hsafe hq hl hidx hkey hnone
    have hnone' : ∀ r ∈ ReportMod.consultedRanges idx p.ruleName,
        ReportMod.rangeMatches p.ruleName (p.line.getD 0) r = false := by
      rw [consultedRanges_of_key idx p.ruleName l hkey]
      exact hnone
    rw [report_eq_reportCore p s hf hsafe]
    refine ⟨{ s with
      stylelintError := s.stylelintError || sevIsError (ReportMod.resolveSeverity p s)
      stylelintWarning := s.stylelintWarning || sevIsWarning (ReportMod.resolveSeverity p s)
      warnings := s.warnings ++ [⟨ReportMod.buildWarningMessage
        (jsOrMsgOpt (s.customMessages.bind fun cm => lookupKey cm p.ruleName) p.message)
        p.messageArgs, ReportMod.buildWarningProperties p (ReportMod.resolveSeverity p s)⟩] },
      ?_, by simp, by simp⟩
    unfold ReportMod.reportCore
    simp [hq, hl, hidx, scanRanges_of_forall_not _ _ _ _ hnone']
  · intro p s idx hf hsafe hq hl hidx hig hkey hmatch
    have hmatch' : ∃ r ∈ ReportMod.consultedRanges idx p.ruleName,
        ReportMod.rangeMatches p.ruleName (p.line.getD 0) r = true := by
      rw [consultedRanges_of_no_key idx p.ruleName hkey]
      exact hmatch
    rw [report_eq_reportCore p s hf hsafe]
    refine ⟨{ s with
      disabledWarnings := s.disabledWarnings ++ [⟨p.ruleName, p.line.getD 0⟩] },
      ?_, by simp, by simp⟩
    unfold ReportMod.reportCore
    simp [hq, hl, hidx, hig, scanRanges_of_exists _ _ _ _ hmatch']

/-- Witness for claim C1: the three conjuncts at concrete inputs — a fix
blocked by a wildcard range and one blocked by a rule-specific range, a
report emitted although a wildcard range covers its line (rule key
present), and a report suppressed by a wildcard range (no rule key). -/
theorem claim_C1_witness :
    Applier.applyFixes ⟨[("all", [⟨1, some 5, none⟩])],
      [("foo", [⟨⟨⟨3, 1⟩, ⟨3, 1⟩⟩, fun _ => ⟨⟨3, 1⟩, ⟨5, 1⟩⟩, false⟩])], {}⟩ =
      ([("all", [⟨1, some 5, none⟩])], []) ∧
    Applier.applyFixes ⟨[("foo", [⟨1, some 5, none⟩])],
      [("foo", [⟨⟨⟨3, 1⟩, ⟨3, 1⟩⟩, fun _ => ⟨⟨3, 1⟩, ⟨5, 1⟩⟩, false⟩])], {}⟩ =
      ([("foo", [⟨1, some 5, none⟩])], []) ∧
    (∃ s', ReportMod.report
        { message := .str "m", ruleName := "foo", line := some 3, severity := .str "error" }
        { disabledRanges := some
            [("all", [⟨1, some 5, none⟩]), ("foo", [⟨10, some 20, none⟩])] } = .ok s' ∧
      s'.disabledWarnings = [] ∧
      s'.warnings.length = 0 + 1) ∧
    (∃ s', ReportMod.report
        { message := .str "m", ruleName := "foo", line := some 3, severity := .str "error" }
        { disabledRanges := some [("all", [⟨1, some 5, none⟩])] } = .ok s' ∧
      s'.disabledWarnings = [] ++ [⟨"foo", 3⟩] ∧
      s'.warnings = []) :=
  ⟨claim_C1.1 {} _ "foo" _ rfl rfl (Or.inl ⟨⟨1, some 5, none⟩, by decide, by decide⟩),
   claim_C1.1 {} _ "foo" _ rfl rfl (Or.inr ⟨⟨1, some 5, none⟩, by decide, by decide⟩),
   claim_C1.2.1 _ _ [("all", [⟨1, some 5, none⟩]), ("foo", [⟨10, some 20, none⟩])]
     [⟨10, some 20, none⟩] rfl (by decide) (by decide) (by decide) rfl rfl (by decide),
   claim_C1.2.2 _ _ [("all", [⟨1, some 5, none⟩])] rfl (by decide) (by decide) (by decide)
     rfl rfl rfl ⟨⟨1, some 5, none⟩, by decide, by decide⟩⟩

/-- Counterexample for claim C7: with `ignoreDisables` false, a deferred fix
for rule `"foo"` starting at line 3 lies inside the wildcard disabled range
`{start: 1, end: 5}` — a range applicable to `"foo"` — yet report.mjs's
`applyFix` consults only the rule-specific list (the `"foo"` key is
present), so the callback runs and the fixer-attempt entry records
`fixed: true`, not `fixed: false`. -/
theorem claim_C7_cex :
    ReportMod.isInRange 3 ⟨1, some 5, none⟩ = true ∧
    lookupKey ([("all", [⟨1, some 5, none⟩]), ("foo", [⟨10, some 20, none⟩])] :
        DisabledRangeIndex) RULE_NAME_ALL = some [⟨1, some 5, none⟩] ∧
    (ReportMod.report
        { message := .str "m", ruleName := "foo", fix := true,
          start := some ⟨3, 1⟩, «end» := some ⟨3, 5⟩ }
        { config := { fix := true }
          disabledRanges := some
            [("all", [⟨1, some 5, none⟩]), ("foo", [⟨10, some 20, none⟩])] }).toOption.map
      (fun s => (s.fixCalls, s.fixersData.map fun kv => (kv.1, kv.2.map fun d => d.fixed))) =
      some (["foo"], [("foo", [true])]) :=
  ⟨by decide, by decide, by rfl⟩

/-- Claim C7 (amended): in fix.mjs's `applyFix` the consulted ranges are the
union of the wildcard and rule-specific lists, so with `ignoreDisables`
false a fix whose start line lies inside a range under either key is not
executed while a `{range, fixed: false}` entry is still recorded, and an
uncovered fix records `fixed: true` and runs; in report.mjs's `applyFix`
the rule-specific list replaces the wildcard list when the key is present
(the wildcard list is consulted only when it is not), with the same
blocked/recorded behavior relative to that consulted list. -/
theorem claim_C7 :
    (∀ (rule : String) (range : NodeRange) (s : Session) (idx : DisabledRangeIndex)
        (st : Position),
      s.disabledRanges = some idx → s.config.ignoreDisables = false →
      range.start = some st →
      ((∃ r ∈ (lookupKey idx RULE_NAME_ALL).getD [], FixMod.isInRange st.line (cb r) = true) ∨
       (∃ r ∈ (lookupKey idx rule).getD [], FixMod.isInRange st.line (cb r) = true)) →
      FixMod.applyFix rule range s =
        .ok { s with fixersData := pushAssoc s.fixersData rule ⟨range, false⟩ }) ∧
    (∀ (rule : String) (range : NodeRange) (s : Session) (idx : DisabledRangeIndex)
        (st : Position),
      s.disabledRanges = some idx → range.start = some st →
      (∀ r ∈ (lookupKey idx RULE_NAME_ALL).getD [], FixMod.isInRange st.line (cb r) = false) →
      (∀ r ∈ (lookupKey idx rule).getD [], FixMod.isInRange st.line (cb r) = false) →
      FixMod.applyFix rule range s =
        .ok { s with
          fixersData := pushAssoc s.fixersData rule ⟨range, true⟩
          fixCalls := s.fixCalls ++ [rule] }) ∧
    (∀ (rule : String) (range : NodeRange) (s : Session) (idx : DisabledRangeIndex)
        (st : Position) (l : List DisabledRange),
      s.disabledRanges = some idx → s.config.ignoreDisables = false →
      range.start = some st → lookupKey idx rule = some l →
      (∃ r ∈ l, ReportMod.isInRange st.line r = true) →
      ReportMod.applyFix rule range s =
        .ok { s with fixersData := pushAssoc s.fixersData rule ⟨range, false⟩ }) ∧
    (∀ (rule : String) (range : NodeRange) (s : Session) (idx : DisabledRangeIndex)
        (st : Position) (l : List DisabledRange),
      s.disabledRanges = some idx → range.start = some st →
      lookupKey idx rule = some l →
      (∀ r ∈ l, ReportMod.isInRange st.line r = false) →
      ReportMod.applyFix rule range s =
        .ok { s with
          fixersData := pushAssoc s.fixersData rule ⟨range, true⟩
          fixCalls := s.fixCalls ++ [rule] }) ∧
    (∀ (rule : String) (range : NodeRange) (s : Session) (idx : DisabledRangeIndex)
        (st : Position),
      s.disabledRanges = some idx → s.config.ignoreDisables = false →
      range.start = some st → lookupKey idx rule = none →
      (∃ r ∈ (lookupKey idx RULE_NAME_ALL).getD [], ReportMod.isInRange st.line r = true) →
      ReportMod.applyFix rule range s =
        .ok { s with fixersData := pushAssoc s.fixersData rule ⟨range, false⟩ }) := by
  refine ⟨?_, ?_, ?_, ?_, ?_⟩
  · intro rule range s idx st hidx hig hst hcov
    have hmem : ∃ t ∈ ((lookupKey idx RULE_NAME_ALL).getD []).map cb ++
        ((lookupKey idx rule).map (·.map cb)).getD [], FixMod.isInRange st.line t = true := by
      rcases hcov with ⟨r, hr, hc⟩ | ⟨r, hr, hc⟩
      · exact ⟨cb r, List.mem_append_left _ (List.mem_map_of_mem cb hr), hc⟩
      · cases hk : lookupKey idx rule with
        | none => rw [hk] at hr; cases hr
        | some l =>
          rw [hk] at hr
          have hr' : r ∈ l := by simpa using hr
          refine ⟨cb r, List.mem_append_right _ ?_, hc⟩
          have hm : cb r ∈ List.map cb l := List.mem_map_of_mem cb hr'
          simpa [hk] using hm
    have hany : (((lookupKey idx RULE_NAME_ALL).getD []).map cb ++
        ((lookupKey idx rule).map (·.map cb)).getD []).any (FixMod.isInRange st.line) = true :=
      List.any_eq_true.mpr hmem
    have hne : (((lookupKey idx RULE_NAME_ALL).getD []).map cb ++
        ((lookupKey idx rule).map (·.map cb)).getD []).isEmpty = false := by
      rcases hmem with ⟨t, ht, _⟩
      cases hl : ((lookupKey idx RULE_NAME_ALL).getD []).map cb ++
          ((lookupKey idx rule).map (·.map cb)).getD [] with
      | nil => rw [hl] at ht; cases ht
      | cons a tl => rfl
    unfold FixMod.applyFix
    simp [hidx, hig, hst, hany, hne]
  · intro rule range s idx st hidx hst hall hrule
    have hany : (((lookupKey idx RULE_NAME_ALL).getD []).map cb ++
        ((lookupKey idx rule).map (·.map cb)).getD []).any (FixMod.isInRange st.line) = false := by
      rw [List.any_eq_false]
      intro t ht
      rcases List.mem_append.mp ht with hm | hm
      · rcases List.mem_map.mp hm with ⟨r, hr, rfl⟩
        simp [hall r hr]
      · cases hk : lookupKey idx rule with
        | none => rw [hk] at hm; simp at hm
        | some l =>
          rw [hk] at hm
          have hm' : t ∈ List.map cb l := by simpa using hm
          rcases List.mem_map.mp hm' with ⟨r, hr, rfl⟩
          simp [hrule r (by rw [hk]; simpa using hr)]
    unfold FixMod.applyFix
    by_cases hig : s.config.ignoreDisables = true
    · simp [hidx, hig]
    · rw [Bool.not_eq_true] at hig
      by_cases hemp : (((lookupKey idx RULE_NAME_ALL).getD []).map cb ++
          ((lookupKey idx rule).map (·.map cb)).getD []).isEmpty = true
      · simp [hidx, hig, hemp]
      · rw [Bool.not_eq_true] at hemp
        simp [hidx, hig, hemp, hst, hany]
  · intro rule range s idx st l hidx hig hst hkey hcov
    have hany : l.any (ReportMod.isInRange st.line) = true := List.any_eq_true.mpr hcov
    have hne : l.isEmpty = false := by
      rcases hcov with ⟨r, hr, _⟩
      cases l with
      | nil => cases hr
      | cons a tl => rfl
    unfold ReportMod.applyFix
    simp [hidx, hkey, hig, hst, hany, hne]
  · intro rule range s idx st l hidx hst hkey hrule
    have hany : l.any (ReportMod.isInRange st.line) = false := by
      rw [List.any_eq_false]
      intro r hr
      simp [hrule r hr]
    unfold ReportMod.applyFix
    by_cases hig : s.config.ignoreDisables = true
    · simp [hidx, hkey, hig]
    · rw [Bool.not_eq_true] at hig
      by_cases hemp : l.isEmpty = true
      · simp [hidx, hkey, hig, hemp]
      · rw [Bool.not_eq_true] at hemp
        simp [hidx, hkey, hig, hemp, hst, hany]
  · intro rule range s idx st hidx hig hst hkey hcov
    have hany : ((lookupKey idx RULE_NAME_ALL).getD []).any (ReportMod.isInRange st.line) = true :=
      List.any_eq_true.mpr hcov
    have hne : ((lookupKey idx RULE_NAME_ALL).getD []).isEmpty = false := by
      rcases hcov with ⟨r, hr, _⟩
      cases hl : (lookupKey idx RULE_NAME_ALL).getD [] with
      | nil => rw [hl] at hr; cases hr
      | cons a tl => rfl
    unfold ReportMod.applyFix
    simp [hidx, hkey, hig, hst, hany, hne]

/-- Witness for claim C7: the blocked and eligible branches of both
`applyFix` variants at concrete inputs. -/
theorem claim_C7_witness :
    FixMod.applyFix "foo" ⟨some ⟨3, 1⟩, some ⟨3, 5⟩⟩
        { disabledRanges := some [("all", [⟨1, some 5, none⟩])] } =
      .ok { disabledRanges := some [("all", [⟨1, some 5, none⟩])]
            fixersData := pushAssoc [] "foo" ⟨⟨some ⟨3, 1⟩, some ⟨3, 5⟩⟩, false⟩ } ∧
    FixMod.applyFix "foo" ⟨some ⟨9, 1⟩, some ⟨9, 5⟩⟩
        { disabledRanges := some [("all", [⟨1, some 5, none⟩])] } =
      .ok { disabledRanges := some [("all", [⟨1, some 5, none⟩])]
            fixersData := pushAssoc [] "foo" ⟨⟨some ⟨9, 1⟩, some ⟨9, 5⟩⟩, true⟩
            fixCalls := [] ++ ["foo"] } ∧
    ReportMod.applyFix "foo" ⟨some ⟨12, 1⟩, some ⟨12, 5⟩⟩
        { disabledRanges := some [("foo", [⟨10, some 20, none⟩])] } =
      .ok { disabledRanges := some [("foo", [⟨10, some 20, none⟩])]
            fixersData := pushAssoc [] "foo" ⟨⟨some ⟨12, 1⟩, some ⟨12, 5⟩⟩, false⟩ } ∧
    ReportMod.applyFix "foo" ⟨some ⟨3, 1⟩, some ⟨3, 5⟩⟩
        { disabledRanges := some [("foo", [⟨10, some 20, none⟩])] } =
      .ok { disabledRanges := some [("foo", [⟨10, some 20, none⟩])]
            fixersData := pushAssoc [] "foo" ⟨⟨some ⟨3, 1⟩, some ⟨3, 5⟩⟩, true⟩
            fixCalls := [] ++ ["foo"] } ∧
    ReportMod.applyFix "foo" ⟨some ⟨3, 1⟩, some ⟨3, 5⟩⟩
        { disabledRanges := some [("all", [⟨1, some 5, none⟩])] } =
      .ok { disabledRanges := some [("all", [⟨1, some 5, none⟩])]
            fixersData := pushAssoc [] "foo" ⟨⟨some ⟨3, 1⟩, some ⟨3, 5⟩⟩, false⟩ } :=
  ⟨claim_C7.1 "foo" _ _ _ ⟨3, 1⟩ rfl rfl rfl (Or.inl ⟨⟨1, some 5, none⟩, by decide, by decide⟩),
   claim_C7.2.1 "foo" _ _ _ ⟨9, 1⟩ rfl rfl (by decide) (by decide),
   claim_C7.2.2.1 "foo" _ _ _ ⟨12, 1⟩ [⟨10, some 20, none⟩] rfl rfl rfl rfl
     ⟨⟨10, some 20, none⟩, by decide, by decide⟩,
   claim_C7.2.2.2.1 "foo" _ _ _ ⟨3, 1⟩ [⟨10, some 20, none⟩] rfl rfl rfl (by decide),
   claim_C7.2.2.2.2 "foo" _ _ _ ⟨3, 1⟩ rfl rfl rfl rfl
     ⟨⟨1, some 5, none⟩, by decide, by decide⟩⟩

/-- Claim C6: under quiet mode, a problem whose resolved severity is not
`'error'` makes `report` return with the session untouched — no diagnostic,
no suppression-log entry, no flag change — and since the statement holds
for every `disabledRanges` content and even for problems with no resolvable
line, the drop happens before the line resolution and the suppression
check. -/
theorem claim_C6 (p : Problem) (s : Session)
    (hq : s.quiet = true) (hsev : sevIsError (ReportMod.resolveSeverity p s) = false)
    (hf : p.fix = false) (hsafe : fixBlockSafe p s.config = true) :
    ReportMod.report p s = .ok s := by
  rw [report_eq_reportCore p s hf hsafe]
  unfold ReportMod.reportCore
  simp [hq, hsev]

/-- Witness for claim C6: a warning-severity problem under quiet mode is
dropped with the session unchanged even though a wildcard disabled range
covers its line. -/
theorem claim_C6_witness :
    ReportMod.report
        { message := .str "m", ruleName := "foo", line := some 3, severity := .str "warning" }
        { quiet := true, disabledRanges := some [("all", [⟨1, some 5, none⟩])] } =
      .ok { quiet := true, disabledRanges := some [("all", [⟨1, some 5, none⟩])] } :=
  claim_C6 _ _ rfl (by decide) rfl (by decide)

/-- Counterexample for claim C5: a problem with no fix callback, no line and
no node under quiet mode with warning severity is dropped by the quiet
check before the missing-line check, so `report` returns normally instead
of raising the fatal error the claim requires. -/
theorem claim_C5_cex :
    ReportMod.report { message := .str "m", ruleName := "foo", severity := .str "warning" }
        { quiet := true } =
      .ok { quiet := true } := by rfl

/-- Claim C5 (amended): a problem with no fix callback and no resolvable
line (no `line`, no `node`) makes `report` raise the fatal missing-line
error naming the rule — with no diagnostic, suppression-log entry or flag
change, since no resulting session exists — unless the quiet-mode drop
fires first (quiet with non-error resolved severity returns silently, see
the counterexample) or fix-enabled index-based range resolution
dereferences the missing node first (`config.fix` with `index`/`endIndex`
but no `start`/`end`), which raises a TypeError that does not name the
rule. -/
theorem claim_C5 (p : Problem) (s : Session)
    (hf : p.fix = false) (hl : p.line = none) (hn : p.node = none) :
    (fixBlockSafe p s.config = true →
      (s.quiet && !sevIsError (ReportMod.resolveSeverity p s)) = false →
      ReportMod.report p s = .error (.err ("The \"" ++ p.ruleName ++
        "\" rule failed to pass either a node or a line number to the `report()` function."))) ∧
    (fixBlockSafe p s.config = false → ReportMod.report p s = .error .typeError) := by
  constructor
  · intro hsafe hq
    rw [report_eq_reportCore p s hf hsafe]
    unfold ReportMod.reportCore
    simp [hq, hl, hn, truthyN]
  · intro hunsafe
    unfold fixBlockSafe at hunsafe
    simp only [Bool.or_eq_false_iff, Bool.not_eq_false'] at hunsafe
    unfold ReportMod.report ReportMod.computeFixRange
    simp [hf, hunsafe.1.1, hunsafe.1.2, hn]

/-- Witness for claim C5: both fatal branches at concrete inputs — the
missing-line error naming the rule, and the TypeError corner. -/
theorem claim_C5_witness :
    ReportMod.report { message := .str "m", ruleName := "foo" } {} =
      .error (.err ("The \"" ++ "foo" ++
        "\" rule failed to pass either a node or a line number to the `report()` function.")) ∧
    ReportMod.report { message := .str "m", ruleName := "foo", index := some 0, endIndex := some 2 }
        { config := { fix := true } } =
      .error .typeError :=
  ⟨(claim_C5 { message := .str "m", ruleName := "foo" } {} rfl rfl rfl).1 (by decide) (by decide),
   (claim_C5 { message := .str "m", ruleName := "foo", index := some 0, endIndex := some 2 }
      { config := { fix := true } } rfl rfl rfl).2 (by decide)⟩

/-- Counterexample for claim C2: with `ignoreDisables` true both wildcard
ranges match line 3 for rule `"foo"`, but the scan `break`s after the first
match, so exactly one suppression-log entry is appended — not one per
matching range — while the diagnostic is still emitted. -/
theorem claim_C2_cex :
    ReportMod.rangeMatches "foo" 3 ⟨1, some 5, none⟩ = true ∧
    ReportMod.rangeMatches "foo" 3 ⟨2, some 6, none⟩ = true ∧
    (ReportMod.report
        { message := .str "m", ruleName := "foo", line := some 3, severity := .str "error" }
        { config := { ignoreDisables := true }
          disabledRanges := some [("all", [⟨1, some 5, none⟩, ⟨2, some 6, none⟩])] }).toOption.map
      (fun s => (s.disabledWarnings, s.warnings.length)) = some ([⟨"foo", 3⟩], 1) :=
  ⟨by decide, by decide, by rfl⟩

/-- Claim C2 (amended): whenever the resolved line is covered by at least
one consulted disabled range, exactly one suppression-log entry is appended
— the scan stops at the first matching range whether or not
`ignoreDisables` is set; with `ignoreDisables` false the report is
suppressed (no diagnostic) and with `ignoreDisables` true no range
suppresses (the diagnostic is still emitted). -/
theorem claim_C2 (p : Problem) (s : Session) (idx : DisabledRangeIndex)
    (hf : p.fix = false) (hsafe : fixBlockSafe p s.config = true)
    (hq : (s.quiet && !sevIsError (ReportMod.resolveSeverity p s)) = false)
    (hl : truthyN p.line = true)
    (hidx : s.disabledRanges = some idx)
    (hmatch : ∃ r ∈ ReportMod.consultedRanges idx p.ruleName,
      ReportMod.rangeMatches p.ruleName (p.line.getD 0) r = true) :
    ∃ s', ReportMod.report p s = .ok s' ∧
      s'.disabledWarnings = s.disabledWarnings ++ [⟨p.ruleName, p.line.getD 0⟩] ∧
      (s.config.ignoreDisables = false → s'.warnings = s.warnings) ∧
      (s.config.ignoreDisables = true → s'.warnings.length = s.warnings.length + 1) := by
  rw [report_eq_reportCore p s hf hsafe]
  by_cases hig : s.config.ignoreDisables = true
  · refine ⟨{ s with
      disabledWarnings := s.disabledWarnings ++ [⟨p.ruleName, p.line.getD 0⟩]
      stylelintError := s.stylelintError || sevIsError (ReportMod.resolveSeverity p s)
      stylelintWarning := s.stylelintWarning || sevIsWarning (ReportMod.resolveSeverity p s)
      warnings := s.warnings ++ [⟨ReportMod.buildWarningMessage
        (jsOrMsgOpt (s.customMessages.bind fun cm => lookupKey cm p.ruleName) p.message)
        p.messageArgs, ReportMod.buildWarningProperties p (ReportMod.resolveSeverity p s)⟩] },
      ?_, by simp, ?_, ?_⟩
    · unfold ReportMod.reportCore
      simp [hq, hl, hidx, hig, scanRanges_of_exists _ _ _ _ hmatch]
    · intro h
      rw [hig] at h
      exact absurd h (by decide)
    · intro _
      simp
  · rw [Bool.not_eq_true] at hig
    refine ⟨{ s with
      disabledWarnings := s.disabledWarnings ++ [⟨p.ruleName, p.line.getD 0⟩] },
      ?_, by simp, ?_, ?_⟩
    · unfold ReportMod.reportCore
      simp [hq, hl, hidx, hig, scanRanges_of_exists _ _ _ _ hmatch]
    · intro _
      simp
    · intro h
      rw [hig] at h
      exact absurd h (by decide)

/-- Witness for claim C2: both `ignoreDisables` modes at concrete inputs:
one entry is logged; suppression occurs exactly when `ignoreDisables` is
false. -/
theorem claim_C2_witness :
    (∃ s', ReportMod.report
        { message := .str "m", ruleName := "foo", line := some 3, severity := .str "error" }
        { disabledRanges := some [("all", [⟨1, some 5, none⟩, ⟨2, some 6, none⟩])] } = .ok s' ∧
      s'.disabledWarnings = [] ++ [⟨"foo", 3⟩] ∧
      (false = false → s'.warnings = []) ∧
      (false = true → s'.warnings.length = 0 + 1)) ∧
    (∃ s', ReportMod.report
        { message := .str "m", ruleName := "foo", line := some 3, severity := .str "error" }
        { config := { ignoreDisables := true }
          disabledRanges := some [("all", [⟨1, some 5, none⟩, ⟨2, some 6, none⟩])] } = .ok s' ∧
      s'.disabledWarnings = [] ++ [⟨"foo", 3⟩] ∧
      (true = false → s'.warnings = []) ∧
      (true = true → s'.warnings.length = 0 + 1)) :=
  ⟨claim_C2 _ _ [("all", [⟨1, some 5, none⟩, ⟨2, some 6, none⟩])] rfl (by decide) (by decide)
      (by decide) rfl ⟨⟨1, some 5, none⟩, by decide, by decide⟩,
   claim_C2 _ _ [("all", [⟨1, some 5, none⟩, ⟨2, some 6, none⟩])] rfl (by decide) (by decide)
      (by decide) rfl ⟨⟨1, some 5, none⟩, by decide, by decide⟩⟩

/-- Claim C10: on the reporting path a disabled range whose `rules` field is
defined and does not include the reported rule never matches — so when
every consulted range is of that shape, the report is emitted and no
suppression-log entry is produced, regardless of line coverage. -/
theorem claim_C10 (p : Problem) (s : Session) (idx : DisabledRangeIndex)
    (hf : p.fix = false) (hsafe : fixBlockSafe p s.config = true)
    (hq : (s.quiet && !sevIsError (ReportMod.resolveSeverity p s)) = false)
    (hl : truthyN p.line = true)
    (hidx : s.disabledRanges = some idx)
    (hall : ∀ r ∈ ReportMod.consultedRanges idx p.ruleName,
      ∃ l, r.rules = some l ∧ p.ruleName ∉ l) :
    (∀ (line : Int) (r : DisabledRange) (l : List String),
      r.rules = some l → p.ruleName ∉ l →
      ReportMod.rangeMatches p.ruleName line r = false) ∧
    ∃ s', ReportMod.report p s = .ok s' ∧
      s'.disabledWarnings = s.disabledWarnings ∧
      s'.warnings.length = s.warnings.length + 1 := by
  have hmf : ∀ (line : Int) (r : DisabledRange) (l : List String),
      r.rules = some l → p.ruleName ∉ l →
      ReportMod.rangeMatches p.ruleName line r = false := by
    intro line r l hrl hnm
    unfold ReportMod.rangeMatches
    rw [hrl]
    cases hcon : l.contains p.ruleName with
    | false =>
      simp [hcon]
      exact fun _ _ => hnm
    | true => exact absurd (by simpa using hcon) hnm
  refine ⟨hmf, ?_⟩
  have hnone : ∀ r ∈ ReportMod.consultedRanges idx p.ruleName,
      ReportMod.rangeMatches p.ruleName (p.line.getD 0) r = false := by
    intro r hr
    rcases hall r hr with ⟨l, hrl, hnm⟩
    exact hmf _ r l hrl hnm
  rw [report_eq_reportCore p s hf hsafe]
  refine ⟨{ s with
    stylelintError := s.stylelintError || sevIsError (ReportMod.resolveSeverity p s)
    stylelintWarning := s.stylelintWarning || sevIsWarning (ReportMod.resolveSeverity p s)
    warnings := s.warnings ++ [⟨ReportMod.buildWarningMessage
      (jsOrMsgOpt (s.customMessages.bind fun cm => lookupKey cm p.ruleName) p.message)
      p.messageArgs, ReportMod.buildWarningProperties p (ReportMod.resolveSeverity p s)⟩] },
    ?_, by simp, by simp⟩
  unfold ReportMod.reportCore
  simp [hq, hl, hidx, scanRanges_of_forall_not _ _ _ _ hnone]

/-- Witness for claim C10: a range `{start: 1, end: 5, rules: ['bar']}`
covers line 3 but is restricted to another rule, so the `"foo"` report is
emitted and nothing is logged. -/
theorem claim_C10_witness :
    ReportMod.rangeMatches "foo" 3 ⟨1, some 5, some ["bar"]⟩ = false ∧
    ∃ s', ReportMod.report
        { message := .str "m", ruleName := "foo", line := some 3, severity := .str "error" }
        { disabledRanges := some [("all", [⟨1, some 5, some ["bar"]⟩])] } = .ok s' ∧
      s'.disabledWarnings = [] ∧
      s'.warnings.length = 0 + 1 :=
  ⟨(claim_C10 { message := .str "m", ruleName := "foo", line := some 3, severity := .str "error" }
      { disabledRanges := some [("all", [⟨1, some 5, some ["bar"]⟩])] }
      [("all", [⟨1, some 5, some ["bar"]⟩])] rfl (by decide) (by decide) (by decide) rfl
      (by intro r hr
          refine ⟨["bar"], ?_, ?_⟩ <;> simp_all [ReportMod.consultedRanges, lookupKey,
            RULE_NAME_ALL])).1 3 ⟨1, some 5, some ["bar"]⟩ ["bar"] rfl (by decide),
   (claim_C10 { message := .str "m", ruleName := "foo", line := some 3, severity := .str "error" }
      { disabledRanges := some [("all", [⟨1, some 5, some ["bar"]⟩])] }
      [("all", [⟨1, some 5, some ["bar"]⟩])] rfl (by decide) (by decide) (by decide) rfl
      (by intro r hr
          refine ⟨["bar"], ?_, ?_⟩ <;> simp_all [ReportMod.consultedRanges, lookupKey,
            RULE_NAME_ALL])).2⟩

/-- Counterexample for claim C4: a problem with no severity field and no
`ruleSeverities` entry for its rule, with `config.defaultSeverity` set to
`'warning'`, is emitted with severity `undefined` — not with
`config.defaultSeverity` as the claim requires (the default is consulted
only on the falsy return of a function option). -/
theorem claim_C4_cex :
    (ReportMod.report { message := .str "m", ruleName := "foo", line := some 1 }
        { config := { defaultSeverity := .str "warning" } }).toOption.map
      (fun s => s.warnings.map fun d => d.props.severity) = some [.undef] ∧
    SevOpt.undef ≠ SevOpt.str "warning" :=
  ⟨by rfl, fun h => SevOpt.noConfusion h⟩

/-- Claim C4 (amended): severity resolution takes `problem.severity` when
truthy, else the `ruleSeverities` entry; when the selected option is a
function it is invoked with `messageArgs` (empty list if absent) and a
falsy return falls back to `config.defaultSeverity` (default `'error'`);
when the selected option is not a function it is used as is — in
particular, with no severity field and no `ruleSeverities` entry the
resolved (and emitted) severity is `undefined`, not
`config.defaultSeverity`. -/
theorem claim_C4 :
    (∀ (p : Problem) (s : Session) (t : String), p.severity = .str t → t ≠ "" →
      ReportMod.resolveSeverity p s = .str t) ∧
    (∀ (p : Problem) (s : Session) (t : String), p.severity = .undef →
      lookupKey s.ruleSeverities p.ruleName = some (.str t) → t ≠ "" →
      ReportMod.resolveSeverity p s = .str t) ∧
    (∀ (p : Problem) (s : Session), p.severity = .undef →
      lookupKey s.ruleSeverities p.ruleName = none →
      ReportMod.resolveSeverity p s = .undef) ∧
    (∀ (p : Problem) (s : Session) (f : List String → SevOpt), p.severity = .fn f →
      (truthySev (f (p.messageArgs.getD [])) = true →
        ReportMod.resolveSeverity p s = f (p.messageArgs.getD [])) ∧
      (truthySev (f (p.messageArgs.getD [])) = false →
        ReportMod.resolveSeverity p s = jsOrSev s.config.defaultSeverity (.str "error"))) ∧
    (∀ (p : Problem) (s : Session), p.fix = false → fixBlockSafe p s.config = true →
      (s.quiet && !sevIsError (ReportMod.resolveSeverity p s)) = false →
      truthyN p.line = true → s.disabledRanges = none →
      ∃ s', ReportMod.report p s = .ok s' ∧
        s'.warnings.map (fun d => d.props.severity) =
          s.warnings.map (fun d => d.props.severity) ++ [ReportMod.resolveSeverity p s]) := by
  refine ⟨?_, ?_, ?_, ?_, ?_⟩
  · intro p s t hs ht
    unfold ReportMod.resolveSeverity
    simp [hs, jsOrSev, truthySev, ht]
  · intro p s t hs hk ht
    unfold ReportMod.resolveSeverity
    simp [hs, hk, jsOrSev, truthySev, ht]
  · intro p s hs hk
    unfold ReportMod.resolveSeverity
    simp [hs, hk, jsOrSev, truthySev]
  · intro p s f hs
    have hsel : jsOrSev p.severity ((lookupKey s.ruleSeverities p.ruleName).getD .undef) =
        .fn f := by
      rw [hs]
      rfl
    constructor
    · intro htr
      unfold ReportMod.resolveSeverity
      rw [hsel]
      show jsOrSev (f (p.messageArgs.getD [])) _ = _
      unfold jsOrSev
      rw [htr]
      rfl
    · intro htr
      unfold ReportMod.resolveSeverity
      rw [hsel]
      show jsOrSev (f (p.messageArgs.getD [])) _ = _
      unfold jsOrSev
      rw [htr]
      rfl
  · intro p s hf hsafe hq hl hidx
    rw [report_eq_reportCore p s hf hsafe]
    refine ⟨{ s with
      stylelintError := s.stylelintError || sevIsError (ReportMod.resolveSeverity p s)
      stylelintWarning := s.stylelintWarning || sevIsWarning (ReportMod.resolveSeverity p s)
      warnings := s.warnings ++ [⟨ReportMod.buildWarningMessage
        (jsOrMsgOpt (s.customMessages.bind fun cm => lookupKey cm p.ruleName) p.message)
        p.messageArgs, ReportMod.buildWarningProperties p (ReportMod.resolveSeverity p s)⟩] },
      ?_, by simp [ReportMod.buildWarningProperties]⟩
    unfold ReportMod.reportCore
    simp [hq, hl, hidx]

/-- Witness for claim C4: each precedence step at concrete inputs,
including the function option with truthy and falsy returns. -/
theorem claim_C4_witness :
    ReportMod.resolveSeverity { message := .str "m", ruleName := "foo", severity := .str "warning" }
      {} = .str "warning" ∧
    ReportMod.resolveSeverity { message := .str "m", ruleName := "foo" }
      { ruleSeverities := [("foo", .str "warning")] } = .str "warning" ∧
    ReportMod.resolveSeverity { message := .str "m", ruleName := "foo" }
      { config := { defaultSeverity := .str "warning" } } = .undef ∧
    ReportMod.resolveSeverity
      { message := .str "m", ruleName := "foo", severity := .fn fun _ => .str "warning" } {} =
      (fun _ => SevOpt.str "warning") ([] : List String) ∧
    ReportMod.resolveSeverity
      { message := .str "m", ruleName := "foo", severity := .fn fun _ => .undef }
      { config := { defaultSeverity := .str "warning" } } =
      jsOrSev (SevOpt.str "warning") (.str "error") :=
  ⟨claim_C4.1 _ {} "warning" rfl (by decide),
   claim_C4.2.1 _ _ "warning" rfl rfl (by decide),
   claim_C4.2.2.1 _ _ rfl rfl,
   (claim_C4.2.2.2.1 _ {} (fun _ => .str "warning") rfl).1 (by decide),
   (claim_C4.2.2.2.1 _ _ (fun _ => .undef) rfl).2 (by decide)⟩

/-- Counterexample for claim C3: the range `{start: 5, end: 15}` straddles
the fix's end line 10 (5 ≤ 10 ≤ 15), so the claim says it is left
unchanged; but after an eligible fix at source lines 3–10 growing by two
lines (delta = 2), `applyFixes` shifts the range's end to 17 because the
two fields are offset independently (`end > endLine` holds). -/
theorem claim_C3_cex :
    Applier.applyFixes
      ⟨[("all", [⟨5, some 15, none⟩])],
        [("foo", [⟨⟨⟨3, 1⟩, ⟨10, 1⟩⟩, fun _ => ⟨⟨3, 1⟩, ⟨12, 1⟩⟩, false⟩])], {}⟩ =
      ([("all", [⟨5, some 17, none⟩])], [("foo", ⟨⟨3, 1⟩, ⟨10, 1⟩⟩)]) ∧
    ((5 : Int) ≤ 10 ∧ (10 : Int) ≤ 15) ∧ some (15 : Int) ≠ some (17 : Int) := by
  refine ⟨rfl, by decide, by decide⟩

/-- Claim C3 (amended): after an eligible fix with
`delta = newEnd.line − entry.range.end.line`, if `delta ≠ 0` and
`ignoreDisables` is false the index becomes `offsetDisabledRanges` of the
old one at the fix's end line; no offset is applied when `delta = 0` or
`ignoreDisables` is true.  `offsetDisabledRanges` shifts, in every key and
independently per field, each start strictly greater than the fix's end
line and each truthy (defined, non-zero) end strictly greater than the
fix's end line; a straddling range therefore keeps its start but its end
is still shifted whenever it exceeds the fix's end line. -/
theorem claim_C3 :
    (∀ (config : Config) (idx : DisabledRangeIndex) (rule : String) (e : Applier.FixEntry),
      Applier.mayFixB config (Applier.rangesFor idx rule) e = true →
      config.ignoreDisables = false →
      (e.callback ()).«end».line - e.source.«end».line ≠ 0 →
      Applier.applyFixes ⟨idx, [(rule, [e])], config⟩ =
        (Applier.offsetDisabledRanges idx e.source.«end».line
          ((e.callback ()).«end».line - e.source.«end».line), [(rule, e.source)])) ∧
    (∀ (config : Config) (idx : DisabledRangeIndex) (rule : String) (e : Applier.FixEntry),
      Applier.mayFixB config (Applier.rangesFor idx rule) e = true →
      (e.callback ()).«end».line - e.source.«end».line = 0 →
      Applier.applyFixes ⟨idx, [(rule, [e])], config⟩ = (idx, [(rule, e.source)])) ∧
    (∀ (config : Config) (idx : DisabledRangeIndex) (rule : String) (e : Applier.FixEntry),
      Applier.mayFixB config (Applier.rangesFor idx rule) e = true →
      config.ignoreDisables = true →
      Applier.applyFixes ⟨idx, [(rule, [e])], config⟩ = (idx, [(rule, e.source)])) ∧
    (∀ (endLine diff : Int) (r : DisabledRange), r.start > endLine →
      (Applier.offsetRange endLine diff r).start = r.start + diff) ∧
    (∀ (endLine diff : Int) (r : DisabledRange), r.start ≤ endLine →
      (Applier.offsetRange endLine diff r).start = r.start) ∧
    (∀ (endLine diff : Int) (r : DisabledRange) (v : Int), r.«end» = some v → v ≠ 0 →
      v > endLine → (Applier.offsetRange endLine diff r).«end» = some (v + diff)) ∧
    (∀ (endLine diff : Int) (r : DisabledRange) (v : Int), r.«end» = some v → v ≤ endLine →
      (Applier.offsetRange endLine diff r).«end» = some v) ∧
    (∀ (endLine diff : Int) (r : DisabledRange), r.«end» = some 0 →
      (Applier.offsetRange endLine diff r).«end» = some 0) ∧
    (∀ (idx : DisabledRangeIndex) (endLine diff : Int) (k : String),
      lookupKey (Applier.offsetDisabledRanges idx endLine diff) k =
        (lookupKey idx k).map (List.map (Applier.offsetRange endLine diff))) := by
  refine ⟨?_, ?_, ?_, ?_, ?_, ?_, ?_, ?_, ?_⟩
  · intro config idx rule e hmay hig hd
    simp [Applier.applyFixes, Applier.runRules, Applier.runEntries, hmay, hig, hd]
  · intro config idx rule e hmay hd
    simp [Applier.applyFixes, Applier.runRules, Applier.runEntries, hmay, hd]
  · intro config idx rule e hmay hig
    simp [Applier.applyFixes, Applier.runRules, Applier.runEntries, hmay, hig]
  · intro endLine diff r h
    simp [Applier.offsetRange, h]
  · intro endLine diff r h
    simp [Applier.offsetRange, Int.not_lt.mpr h]
  · intro endLine diff r v hv hnz hgt
    simp [Applier.offsetRange, hv, hnz, hgt]
  · intro endLine diff r v hv hle
    simp [Applier.offsetRange, hv, Int.not_lt.mpr hle]
  · intro endLine diff r hv
    simp [Applier.offsetRange, hv]
  · intro idx endLine diff k
    induction idx with
    | nil => rfl
    | cons kv rest ih =>
      by_cases hk : kv.1 = k
      · simp [Applier.offsetDisabledRanges, lookupKey, hk]
      · simp only [Applier.offsetDisabledRanges, List.map_cons, lookupKey, hk, if_false] at ih ⊢
        exact ih

/-- Witness for claim C3: the offset branch applied to a concrete eligible
fix that adds two lines, and the field-level facts at concrete ranges. -/
theorem claim_C3_witness :
    Applier.applyFixes
      ⟨[("all", [⟨20, some 30, none⟩])],
        [("foo", [⟨⟨⟨3, 1⟩, ⟨10, 1⟩⟩, fun _ => ⟨⟨3, 1⟩, ⟨12, 1⟩⟩, false⟩])], {}⟩ =
      (Applier.offsetDisabledRanges [("all", [⟨20, some 30, none⟩])] 10 2,
        [("foo", ⟨⟨3, 1⟩, ⟨10, 1⟩⟩)]) ∧
    (Applier.offsetRange 10 2 ⟨20, some 30, none⟩).start = 20 + 2 ∧
    (Applier.offsetRange 10 2 ⟨5, some 15, none⟩).start = 5 ∧
    (Applier.offsetRange 10 2 ⟨5, some 15, none⟩).«end» = some (15 + 2) ∧
    (Applier.offsetRange 10 2 ⟨5, some 8, none⟩).«end» = some 8 ∧
    (Applier.offsetRange 10 2 ⟨5, some 0, none⟩).«end» = some 0 :=
  ⟨claim_C3.1 {} _ "foo" _ (by decide) rfl (by decide),
   claim_C3.2.2.2.1 10 2 ⟨20, some 30, none⟩ (by decide),
   claim_C3.2.2.2.2.1 10 2 ⟨5, some 15, none⟩ (by decide),
   claim_C3.2.2.2.2.2.1 10 2 ⟨5, some 15, none⟩ 15 rfl (by decide) (by decide),
   claim_C3.2.2.2.2.2.2.1 10 2 ⟨5, some 8, none⟩ 8 rfl (by decide),
   claim_C3.2.2.2.2.2.2.2.1 10 2 ⟨5, some 0, none⟩ rfl⟩
